import Mathlib

/-!
Verification development for the lighthouse event-collection subsystem.

The data model and operations below are shallow embeddings. Components whose
implementation files are present in the repository (the structured-data
validator pipeline and the canonical SEO audit) are translated directly from
their JavaScript source. Components whose implementation is exercised only
through tests or callers in the repository (EventBuffer, NetworkRecordIndex,
IssueReconciler, CollectorAdapter, ComputedFactCache, main-resource
resolution) are modelled from the specification, as marked in each doc
comment.
-/

set_option autoImplicit false

/-- One observed network request for the run, finalized once the network
collection phase ends. -/
structure NetworkRecord where
  requestId : String
  url : String
  resourceType : String
deriving DecidableEq, Repr

/-- Modelled from the spec: NetworkRecordIndex construction
(implementation is not under src). Built in a single pass over the finalized
record list; later duplicate requestIds overwrite earlier ones
(last-write-wins). The index is a total function into Option, so a lookup
never throws: a missing id yields none. -/
def buildIndex (records : List NetworkRecord) : String → Option NetworkRecord :=
  records.foldl
    (fun idx r => fun rid => if rid = r.requestId then some r else idx rid)
    (fun _ => none)

theorem buildIndex_nil (rid : String) : buildIndex [] rid = none := rfl

theorem buildIndex_append_singleton (records : List NetworkRecord)
    (r : NetworkRecord) (rid : String) :
    buildIndex (records ++ [r]) rid =
      if rid = r.requestId then some r else buildIndex records rid := by
  simp [buildIndex, List.foldl_append]

theorem buildIndex_eq_find_reverse (records : List NetworkRecord) (rid : String) :
    buildIndex records rid =
      records.reverse.find? (fun r => r.requestId = rid) := by
  induction records using List.reverseRecOn with
  | nil => rfl
  | append_singleton rs r ih =>
      rw [buildIndex_append_singleton]
      simp only [List.reverse_append, List.reverse_cons, List.reverse_nil,
        List.nil_append, List.cons_append, List.find?]
      by_cases h : rid = r.requestId
      · simp [h]
      · have h2 : ¬r.requestId = rid := fun hr => h hr.symm
        simp [h, h2, ih]

theorem buildIndex_eq_none_iff (records : List NetworkRecord) (rid : String) :
    buildIndex records rid = none ↔ ∀ r ∈ records, r.requestId ≠ rid := by
  rw [buildIndex_eq_find_reverse, List.find?_eq_none]
  constructor
  · intro h r hr hid
    have := h r (List.mem_reverse.mpr hr)
    simp [hid] at this
  · intro h r hr
    simpa using h r (List.mem_reverse.mp hr)

/-- C7: for every finite record list and every request id, the index lookup is
a total function (never throws), returns the last record of the construction
sequence whose requestId matches (later duplicates overwrite earlier ones),
and is absent exactly when no record in the sequence carries that id. -/
theorem networkRecordIndex_lookup_last_write_wins
    (records : List NetworkRecord) (rid : String) :
    buildIndex records rid = records.reverse.find? (fun r => r.requestId = rid) ∧
      (buildIndex records rid = none ↔ ∀ r ∈ records, r.requestId ≠ rid) :=
  ⟨buildIndex_eq_find_reverse records rid, buildIndex_eq_none_iff records rid⟩

/-- Witness: a three-record list with a duplicated id resolves to the later
record, and a fresh id resolves to none. -/
theorem networkRecordIndex_lookup_last_write_wins_witness :
    buildIndex
        [⟨"1", "https://a.test/", "Document"⟩,
         ⟨"2", "https://b.test/", "Script"⟩,
         ⟨"1", "https://c.test/", "Image"⟩] "1" =
      some ⟨"1", "https://c.test/", "Image"⟩ := by
  rw [(networkRecordIndex_lookup_last_write_wins
    [⟨"1", "https://a.test/", "Document"⟩,
     ⟨"2", "https://b.test/", "Script"⟩,
     ⟨"1", "https://c.test/", "Image"⟩] "1").1]
  decide

/-! The issue categories of the spec: the fixed set of known categories the
IssueReconciler emits. -/

/-- Known issue categories, from the spec list mixed-content, same-site-cookie,
blocked-by-response, heavy-ad, content-security-policy. -/
inductive IssueCategory where
  | mixedContent
  | sameSiteCookie
  | blockedByResponse
  | heavyAd
  | contentSecurityPolicy
deriving DecidableEq, Repr

/-- An observation delivered by the instrumentation layer; the payload is
opaque to this subsystem; requestRef optionally names the network request the
event is tied to. -/
structure ProtocolEvent where
  category : IssueCategory
  payload : Nat
  requestRef : Option String
deriving DecidableEq, Repr

/-- Buffer lifecycle states: freshly created, accepting events while the
instrumentation window is open, and closed after the window ends. -/
inductive BufState where
  | created
  | accepting
  | closed
deriving DecidableEq, Repr

/-- Out-of-order lifecycle calls fail with this error; it is fatal and
indicates an orchestrator bug. -/
inductive LifecycleError where
  | lifecycleError
deriving DecidableEq, Repr

/-- Modelled from the spec: the per-collection-instance ordered store of
instrumentation events observed during an active window (implementation is
not under src). -/
structure EventBuffer where
  state : BufState
  events : List ProtocolEvent
deriving DecidableEq, Repr

/-- Modelled from the spec: open() transitions to the accepting state; calling
it while already open is a programmer error and fails with LifecycleError;
the buffer is opened exactly once per run, so reopening a closed buffer also
fails. -/
def EventBuffer.openWindow : EventBuffer → Except LifecycleError EventBuffer
  | ⟨.created, evts⟩ => .ok ⟨.accepting, evts⟩
  | ⟨_, _⟩ => .error .lifecycleError

/-- Modelled from the spec: record(event) appends to the internal ordered
sequence only while open, preserving arrival order across all categories;
events delivered while not open are discarded without error. -/
def EventBuffer.record (b : EventBuffer) (e : ProtocolEvent) : EventBuffer :=
  if b.state = .accepting then ⟨b.state, b.events ++ [e]⟩ else b

/-- Delivers a whole arrival sequence to the buffer in order. -/
def EventBuffer.recordAll (b : EventBuffer) (evts : List ProtocolEvent) :
    EventBuffer :=
  evts.foldl EventBuffer.record b

/-- Modelled from the spec: close() transitions to the closed state and
returns the accumulated ordered sequence; closing a buffer that is not open
is an out-of-order lifecycle call and fails with LifecycleError. -/
def EventBuffer.closeWindow :
    EventBuffer → Except LifecycleError (EventBuffer × List ProtocolEvent)
  | ⟨.accepting, evts⟩ => .ok (⟨.closed, evts⟩, evts)
  | ⟨_, _⟩ => .error .lifecycleError

theorem EventBuffer.recordAll_accepting (evts : List ProtocolEvent) :
    ∀ acc : List ProtocolEvent,
      EventBuffer.recordAll ⟨.accepting, acc⟩ evts = ⟨.accepting, acc ++ evts⟩ := by
  induction evts with
  | nil => intro acc; simp [EventBuffer.recordAll]
  | cons e rest ih =>
      intro acc
      have step : EventBuffer.record ⟨.accepting, acc⟩ e = ⟨.accepting, acc ++ [e]⟩ := by
        simp [EventBuffer.record]
      simp only [EventBuffer.recordAll, List.foldl_cons] at *
      rw [step, ih (acc ++ [e])]
      simp

/-- Modelled from the spec: the event-retention rule of the IssueReconciler.
An event whose requestRef is present is kept only if the index resolves the
referenced request to a record; an event with no requestRef passes through
unfiltered. -/
def keepEvent (idx : String → Option NetworkRecord) (e : ProtocolEvent) : Bool :=
  match e.requestRef with
  | none => true
  | some rid => (idx rid).isSome

/-- The surviving events of one category: partition by category preserving
relative order, then apply the request-reference filter. -/
def survivingEvents (idx : String → Option NetworkRecord) (c : IssueCategory)
    (events : List ProtocolEvent) : List ProtocolEvent :=
  (events.filter (fun e => decide (e.category = c))).filter (keepEvent idx)

/-- The finalized, categorized artifact: one ordered list per known category,
a key for every category even when its list is empty. -/
structure RawArtifact where
  mixedContent : List ProtocolEvent
  sameSiteCookie : List ProtocolEvent
  blockedByResponse : List ProtocolEvent
  heavyAd : List ProtocolEvent
  contentSecurityPolicy : List ProtocolEvent
deriving DecidableEq, Repr

/-- Reads the list stored for one category key of the artifact. -/
def RawArtifact.get (a : RawArtifact) : IssueCategory → List ProtocolEvent
  | .mixedContent => a.mixedContent
  | .sameSiteCookie => a.sameSiteCookie
  | .blockedByResponse => a.blockedByResponse
  | .heavyAd => a.heavyAd
  | .contentSecurityPolicy => a.contentSecurityPolicy

/-- Modelled from the spec: the IssueReconciler. Partitions the ordered event
sequence by category, keeps an event with a requestRef only when the index
resolves it, passes events without a requestRef through, and emits one list
per known category, never omitting a category key. -/
def reconcile (events : List ProtocolEvent)
    (idx : String → Option NetworkRecord) : RawArtifact where
  mixedContent := survivingEvents idx .mixedContent events
  sameSiteCookie := survivingEvents idx .sameSiteCookie events
  blockedByResponse := survivingEvents idx .blockedByResponse events
  heavyAd := survivingEvents idx .heavyAd events
  contentSecurityPolicy := survivingEvents idx .contentSecurityPolicy events

theorem reconcile_get (events : List ProtocolEvent)
    (idx : String → Option NetworkRecord) (c : IssueCategory) :
    (reconcile events idx).get c = survivingEvents idx c events := by
  cases c <;> rfl

/-- C3: an event of the run appears in its category list of the finalized
artifact exactly when its requestRef (if any) resolves in the index; an event
carrying no requestRef is always retained. Two distinct events referencing two
distinct but both-resolved requests both satisfy the right side, hence both
are kept: the rule is a filter, not a content-based deduplication. -/
theorem issueReconciler_filters_by_request_resolution
    (events : List ProtocolEvent) (records : List NetworkRecord)
    (e : ProtocolEvent) (he : e ∈ events) :
    e ∈ (reconcile events (buildIndex records)).get e.category ↔
      (∀ rid, e.requestRef = some rid → (buildIndex records rid).isSome = true) := by
  rw [reconcile_get]
  unfold survivingEvents
  rw [List.mem_filter, List.mem_filter]
  constructor
  · intro h rid hrid
    have hk := h.2
    unfold keepEvent at hk
    rw [hrid] at hk
    exact hk
  · intro h
    refine ⟨⟨he, by simp⟩, ?_⟩
    unfold keepEvent
    cases hr : e.requestRef with
    | none => rfl
    | some rid => exact h rid hr

/-- Witness for C3: two distinct mixed-content events referencing two distinct
resolved requests are both kept. -/
theorem issueReconciler_filters_by_request_resolution_witness :
    (⟨.mixedContent, 0, some "1"⟩ : ProtocolEvent) ∈
        (reconcile
          [⟨.mixedContent, 0, some "1"⟩, ⟨.mixedContent, 1, some "2"⟩]
          (buildIndex
            [⟨"1", "https://a.test/", "Document"⟩,
             ⟨"2", "https://b.test/", "Script"⟩])).get .mixedContent ∧
      (⟨.mixedContent, 1, some "2"⟩ : ProtocolEvent) ∈
        (reconcile
          [⟨.mixedContent, 0, some "1"⟩, ⟨.mixedContent, 1, some "2"⟩]
          (buildIndex
            [⟨"1", "https://a.test/", "Document"⟩,
             ⟨"2", "https://b.test/", "Script"⟩])).get .mixedContent := by
  constructor
  · exact (issueReconciler_filters_by_request_resolution
      [⟨.mixedContent, 0, some "1"⟩, ⟨.mixedContent, 1, some "2"⟩]
      [⟨"1", "https://a.test/", "Document"⟩, ⟨"2", "https://b.test/", "Script"⟩]
      ⟨.mixedContent, 0, some "1"⟩ (by simp)).mpr (by decide)
  · exact (issueReconciler_filters_by_request_resolution
      [⟨.mixedContent, 0, some "1"⟩, ⟨.mixedContent, 1, some "2"⟩]
      [⟨"1", "https://a.test/", "Document"⟩, ⟨"2", "https://b.test/", "Script"⟩]
      ⟨.mixedContent, 1, some "2"⟩ (by simp)).mpr (by decide)

/-- C4: the finalized artifact carries a key for every known category (the
get field access is total over IssueCategory), and the list stored at a
category is empty exactly when no event of that category survives the
request-reference filter; a category key is never omitted. -/
theorem reconcile_emits_every_category_key
    (events : List ProtocolEvent) (records : List NetworkRecord)
    (c : IssueCategory) :
    (reconcile events (buildIndex records)).get c = [] ↔
      ∀ e ∈ events, ¬(e.category = c ∧
        keepEvent (buildIndex records) e = true) := by
  rw [reconcile_get]
  unfold survivingEvents
  rw [List.filter_filter, List.filter_eq_nil_iff]
  constructor
  · intro h e he hc
    have := h e he
    simp [hc.1, hc.2] at this
  · intro h e he
    intro hb
    simp only [Bool.and_eq_true, decide_eq_true_eq] at hb
    exact h e he ⟨hb.2, hb.1⟩

/-- Witness for C4: with no surviving heavy-ad events the heavy-ad key is
present and maps to the empty list. -/
theorem reconcile_emits_every_category_key_witness :
    (reconcile [⟨.mixedContent, 0, some "1"⟩]
        (buildIndex [⟨"1", "https://a.test/", "Document"⟩])).get .heavyAd = [] :=
  (reconcile_emits_every_category_key
    [⟨.mixedContent, 0, some "1"⟩]
    [⟨"1", "https://a.test/", "Document"⟩] .heavyAd).mpr (by decide)

/-- C5: a buffer opened for the run stores any arrival sequence exactly as
delivered (no reorder, no drop), and each per-category list of the finalized
artifact is the order-preserving filter of the arrival sequence, hence a
sublist of it: relative arrival order survives partitioning. -/
theorem eventBuffer_preserves_arrival_order
    (evts : List ProtocolEvent) (idx : String → Option NetworkRecord)
    (c : IssueCategory) :
    (EventBuffer.recordAll ⟨.accepting, []⟩ evts).events = evts ∧
      (reconcile evts idx).get c =
        (evts.filter (fun e => decide (e.category = c))).filter (keepEvent idx) ∧
      ((reconcile evts idx).get c).Sublist evts := by
  refine ⟨?_, ?_, ?_⟩
  · rw [EventBuffer.recordAll_accepting]
    simp
  · rw [reconcile_get]; rfl
  · rw [reconcile_get]
    exact (List.filter_sublist _).trans (List.filter_sublist _)

/-- The dependency bundle resolved from the dependency graph for the
instrumentation-window protocol: the finalized network record list. -/
structure Dependencies where
  networkRecords : List NetworkRecord
deriving DecidableEq, Repr

/-- Modelled from the spec: the CollectorAdapter presents one lifecycle over
the two underlying protocols; it owns the EventBuffer (implementation is not
under src). -/
structure CollectorAdapter where
  buffer : EventBuffer
deriving DecidableEq, Repr

/-- A freshly constructed adapter for one run: buffer created, no events. -/
def CollectorAdapter.init : CollectorAdapter := ⟨⟨.created, []⟩⟩

/-- Modelled from the spec: the legacy setup phase opens the EventBuffer and
subscribes to events. -/
def CollectorAdapter.beforePass (a : CollectorAdapter) :
    Except LifecycleError CollectorAdapter :=
  match a.buffer.openWindow with
  | .error err => .error err
  | .ok b => .ok ⟨b⟩

/-- Delivery of one subscribed protocol event to the adapter. -/
def CollectorAdapter.deliver (a : CollectorAdapter) (e : ProtocolEvent) :
    CollectorAdapter :=
  ⟨a.buffer.record e⟩

/-- Delivery of a whole transport-ordered event stream. -/
def CollectorAdapter.deliverAll (a : CollectorAdapter)
    (evts : List ProtocolEvent) : CollectorAdapter :=
  evts.foldl CollectorAdapter.deliver a

/-- Modelled from the spec: the legacy finalization phase receives the
already-finalized network record list directly, closes the buffer, and runs
the IssueReconciler against those records. -/
def CollectorAdapter.afterPass (a : CollectorAdapter)
    (networkRecords : List NetworkRecord) :
    Except LifecycleError RawArtifact :=
  match a.buffer.closeWindow with
  | .error err => .error err
  | .ok (_, evts) => .ok (reconcile evts (buildIndex networkRecords))

/-- Modelled from the spec: startInstrumentation opens the EventBuffer. -/
def CollectorAdapter.startInstrumentation (a : CollectorAdapter) :
    Except LifecycleError CollectorAdapter :=
  match a.buffer.openWindow with
  | .error err => .error err
  | .ok b => .ok ⟨b⟩

/-- Modelled from the spec: stopInstrumentation closes the EventBuffer and
defers reconciliation. -/
def CollectorAdapter.stopInstrumentation (a : CollectorAdapter) :
    Except LifecycleError CollectorAdapter :=
  match a.buffer.closeWindow with
  | .error err => .error err
  | .ok (b, _) => .ok ⟨b⟩

/-- Modelled from the spec: the produceArtifact step of the
instrumentation-window protocol receives its network-record dependency from
the dependency graph and reconciles the buffered events; invoking it before
the window was stopped is an out-of-order lifecycle call. -/
def CollectorAdapter.getArtifact (a : CollectorAdapter)
    (deps : Dependencies) : Except LifecycleError RawArtifact :=
  match a.buffer.state with
  | .closed => .ok (reconcile a.buffer.events (buildIndex deps.networkRecords))
  | _ => .error .lifecycleError

/-- Driving a fresh adapter through the legacy multi-phase protocol: setup,
event delivery during the pass, finalization with the record list supplied
directly. -/
def runLegacyProtocol (evts : List ProtocolEvent)
    (networkRecords : List NetworkRecord) :
    Except LifecycleError RawArtifact :=
  match CollectorAdapter.init.beforePass with
  | .error err => .error err
  | .ok a => (a.deliverAll evts).afterPass networkRecords

/-- Driving a fresh adapter through the instrumentation-window protocol:
start, event delivery, stop, then artifact production from the resolved
dependency. -/
def runInstrumentationProtocol (evts : List ProtocolEvent)
    (networkRecords : List NetworkRecord) :
    Except LifecycleError RawArtifact :=
  match CollectorAdapter.init.startInstrumentation with
  | .error err => .error err
  | .ok a =>
    match (a.deliverAll evts).stopInstrumentation with
    | .error err => .error err
    | .ok a2 => a2.getArtifact ⟨networkRecords⟩

theorem CollectorAdapter.deliverAll_accepting (evts : List ProtocolEvent)
    (acc : List ProtocolEvent) :
    CollectorAdapter.deliverAll ⟨⟨.accepting, acc⟩⟩ evts =
      ⟨⟨.accepting, acc ++ evts⟩⟩ := by
  have h : ∀ (l : List ProtocolEvent) (b : EventBuffer),
      l.foldl CollectorAdapter.deliver ⟨b⟩ = ⟨l.foldl EventBuffer.record b⟩ := by
    intro l
    induction l with
    | nil => intro b; rfl
    | cons e rest ih => intro b; simpa [CollectorAdapter.deliver] using ih (b.record e)
  unfold CollectorAdapter.deliverAll
  rw [h]
  rw [show (List.foldl EventBuffer.record ⟨.accepting, acc⟩ evts) =
    EventBuffer.recordAll ⟨.accepting, acc⟩ evts from rfl]
  rw [EventBuffer.recordAll_accepting]

/-- C2: for every event stream and every finalized network-record list, the
legacy protocol (beforePass, delivery, afterPass with the records supplied
directly) and the instrumentation-window protocol (startInstrumentation,
delivery, stopInstrumentation, getArtifact with the records resolved from
dependencies) produce identical finalized RawArtifacts. -/
theorem crossProtocol_artifacts_identical (evts : List ProtocolEvent)
    (networkRecords : List NetworkRecord) :
    runLegacyProtocol evts networkRecords =
        runInstrumentationProtocol evts networkRecords ∧
      runLegacyProtocol evts networkRecords =
        .ok (reconcile evts (buildIndex networkRecords)) := by
  have hopen : CollectorAdapter.init.beforePass = .ok ⟨⟨.accepting, []⟩⟩ := rfl
  have hstart : CollectorAdapter.init.startInstrumentation =
      .ok ⟨⟨.accepting, []⟩⟩ := rfl
  have hdeliver := CollectorAdapter.deliverAll_accepting evts []
  constructor
  · unfold runLegacyProtocol runInstrumentationProtocol
    rw [hopen, hstart]
    dsimp only
    rw [hdeliver]
    simp [CollectorAdapter.afterPass, CollectorAdapter.stopInstrumentation,
      CollectorAdapter.getArtifact, EventBuffer.closeWindow]
  · unfold runLegacyProtocol
    rw [hopen]
    dsimp only
    rw [hdeliver]
    simp [CollectorAdapter.afterPass, EventBuffer.closeWindow]

/-- C8: opening an already-open buffer fails with LifecycleError, as does
startInstrumentation on an already-started adapter; lifecycle calls out of
order fail with LifecycleError (stop before start, finalize before stop); by
contrast an event delivered while the buffer is closed is discarded without
raising any error (record is total and leaves the buffer unchanged). -/
theorem lifecycle_out_of_order_fails (evts : List ProtocolEvent)
    (e : ProtocolEvent) (deps : Dependencies) :
    (EventBuffer.mk .accepting evts).openWindow = .error .lifecycleError ∧
      (CollectorAdapter.mk ⟨.accepting, evts⟩).startInstrumentation =
        .error .lifecycleError ∧
      (CollectorAdapter.mk ⟨.created, evts⟩).stopInstrumentation =
        .error .lifecycleError ∧
      (CollectorAdapter.mk ⟨.accepting, evts⟩).getArtifact deps =
        .error .lifecycleError ∧
      (EventBuffer.mk .closed evts).record e = EventBuffer.mk .closed evts := by
  refine ⟨rfl, rfl, rfl, rfl, ?_⟩
  simp [EventBuffer.record]

/-- The shared result handle stored by the ComputedFactCache: pending while
the single-flight computation is in progress, completed once it resolves.
Two callers share one computation exactly when they hold handles with the
same id. -/
inductive FactHandle where
  | pending (id : Nat)
  | completed (id : Nat) (value : Nat)
deriving DecidableEq, Repr

/-- Association lookup over the fact cache. -/
def lookupFact : List (String × FactHandle) → String → Option FactHandle
  | [], _ => none
  | (k, v) :: rest, kind => if k = kind then some v else lookupFact rest kind

/-- Modelled from the spec: the per-RunContext state of the ComputedFactCache
(implementation is not under src). The cache maps fact-kind to the shared
handle; nextId numbers fresh handles; computeStarts is ghost instrumentation
counting how many times the underlying pure computation was started. -/
structure CacheState where
  cache : List (String × FactHandle)
  nextId : Nat
  computeStarts : Nat
deriving DecidableEq, Repr

/-- Modelled from the spec: request(factKind, context). If the context cache
already holds a stored or in-flight result for the fact-kind, the existing
shared handle is returned and nothing is recomputed; otherwise the in-flight
handle is stored immediately, before the computation completes, so concurrent
callers observe and share it, and the underlying computation is started
(counted once in computeStarts). Under the single-threaded cooperative model,
calls issued before the first resolves each run this step while the stored
handle is still pending. -/
def ComputedFactCache.request (kind : String) (st : CacheState) :
    FactHandle × CacheState :=
  match lookupFact st.cache kind with
  | some h => (h, st)
  | none =>
    (FactHandle.pending st.nextId,
      { cache := (kind, FactHandle.pending st.nextId) :: st.cache,
        nextId := st.nextId + 1,
        computeStarts := st.computeStarts + 1 })

/-- Modelled from the spec: on completion the cache stores the resolved value
permanently for the lifetime of the context, replacing the pending handle of
the same computation. -/
def ComputedFactCache.resolve (kind : String) (value : Nat) (st : CacheState) :
    CacheState :=
  { st with
    cache := st.cache.map (fun kv =>
      if kv.1 = kind then (kv.1, match kv.2 with
        | .pending id => FactHandle.completed id value
        | h => h)
      else kv) }

/-- N successive request calls for the same fact-kind, none of which awaits
the computation in between: the interleaving in which all callers issue their
request before the first resolves. -/
def ComputedFactCache.requestMany (kind : String) :
    Nat → CacheState → List FactHandle × CacheState
  | 0, st => ([], st)
  | n + 1, st =>
    match ComputedFactCache.request kind st with
    | (h, st1) =>
      match ComputedFactCache.requestMany kind n st1 with
      | (hs, st2) => (h :: hs, st2)

theorem ComputedFactCache.request_hit (kind : String) (st : CacheState)
    (h : FactHandle) (hhit : lookupFact st.cache kind = some h) :
    ComputedFactCache.request kind st = (h, st) := by
  unfold ComputedFactCache.request
  rw [hhit]

theorem ComputedFactCache.requestMany_hit (kind : String) (n : Nat)
    (st : CacheState) (h : FactHandle)
    (hhit : lookupFact st.cache kind = some h) :
    ComputedFactCache.requestMany kind n st = (List.replicate n h, st) := by
  induction n with
  | zero => rfl
  | succ m ih =>
      unfold ComputedFactCache.requestMany
      rw [ComputedFactCache.request_hit kind st h hhit]
      dsimp only
      rw [ih]
      simp [List.replicate_succ]

/-- C1: when N requests for the same fact-kind and the same run context are
issued before the first one resolves (the cache initially holds no entry for
that kind and no resolution step runs in between), the underlying computation
starts exactly once, every caller receives the same shared pending handle,
and that in-flight handle sits in the context cache before any completion. -/
theorem computedFactCache_single_flight (kind : String) (st : CacheState)
    (n : Nat) (hmiss : lookupFact st.cache kind = none) (hn : 0 < n) :
    (ComputedFactCache.requestMany kind n st).1 =
        List.replicate n (FactHandle.pending st.nextId) ∧
      (ComputedFactCache.requestMany kind n st).2.computeStarts =
        st.computeStarts + 1 ∧
      lookupFact (ComputedFactCache.requestMany kind n st).2.cache kind =
        some (FactHandle.pending st.nextId) := by
  obtain ⟨m, rfl⟩ : ∃ m, n = m + 1 :=
    ⟨n - 1, (Nat.succ_pred_eq_of_pos hn).symm⟩
  have hfirst : ComputedFactCache.request kind st =
      (FactHandle.pending st.nextId,
        { cache := (kind, FactHandle.pending st.nextId) :: st.cache,
          nextId := st.nextId + 1,
          computeStarts := st.computeStarts + 1 }) := by
    unfold ComputedFactCache.request
    rw [hmiss]
  have hhit : lookupFact
      ((kind, FactHandle.pending st.nextId) :: st.cache) kind =
      some (FactHandle.pending st.nextId) := by
    unfold lookupFact
    simp
  have hrest := ComputedFactCache.requestMany_hit kind m
    { cache := (kind, FactHandle.pending st.nextId) :: st.cache,
      nextId := st.nextId + 1,
      computeStarts := st.computeStarts + 1 }
    (FactHandle.pending st.nextId) hhit
  unfold ComputedFactCache.requestMany
  rw [hfirst]
  dsimp only
  rw [hrest]
  exact ⟨rfl, rfl, hhit⟩

/-- Witness for C1: three concurrent requests for the main-resource fact on a
fresh context share the handle with id 0 and start one computation. -/
theorem computedFactCache_single_flight_witness :
    (ComputedFactCache.requestMany "main-resource" 3 ⟨[], 0, 0⟩).1 =
        List.replicate 3 (FactHandle.pending 0) ∧
      (ComputedFactCache.requestMany "main-resource" 3 ⟨[], 0, 0⟩).2.computeStarts
        = 1 :=
  ⟨(computedFactCache_single_flight "main-resource" ⟨[], 0, 0⟩ 3 rfl
      (by decide)).1,
    (computedFactCache_single_flight "main-resource" ⟨[], 0, 0⟩ 3 rfl
      (by decide)).2.1⟩

/-- The run mode carried by the RunContext. -/
inductive GatherMode where
  | navigation
  | timespan
deriving DecidableEq, Repr

/-- Computed-fact resolution failures. -/
inductive ComputedError where
  | mainResourceNotFound (message : String)
deriving DecidableEq, Repr

/-- Modelled from the spec: main-resource resolution scans the finalized
network records for the top-level document request matching the run target
URL (implementation is not under src). When no record matches: in navigation
mode the computation fails with MainResourceNotFound, surfaced to the caller;
in timespan mode the result is ok and communicates a not-applicable condition
as none. -/
def computeMainResource (records : List NetworkRecord) (finalUrl : String)
    (mode : GatherMode) : Except ComputedError (Option NetworkRecord) :=
  match records.find? (fun r => decide (r.url = finalUrl)) with
  | some r => .ok (some r)
  | none =>
    match mode with
    | .navigation =>
      .error (.mainResourceNotFound "Unable to identify the main resource")
    | .timespan => .ok none

/-- A score-bearing audit product: score is absent exactly in the non-scored
outcome. -/
structure ScoredProduct where
  score : Option Nat
  notApplicable : Bool
deriving DecidableEq, Repr

/-- Modelled from the spec: a score-bearing consumer of the main-resource
fact; a not-applicable resolution is translated into a neutral, non-scored
outcome rather than a failure, while a resolution failure propagates. -/
def auditMainResource (scoreOf : NetworkRecord → Nat)
    (records : List NetworkRecord) (finalUrl : String) (mode : GatherMode) :
    Except ComputedError ScoredProduct :=
  match computeMainResource records finalUrl mode with
  | .error err => .error err
  | .ok none => .ok { score := none, notApplicable := true }
  | .ok (some r) => .ok { score := some (scoreOf r), notApplicable := false }

/-- C6: with no record matching the run target URL, main-resource resolution
rejects with MainResourceNotFound identifying failure to locate the main
resource in navigation mode, while in timespan mode it does not fail and its
not-applicable result is surfaced by a score-bearing consumer as a neutral,
non-scored outcome. -/
theorem mainResource_mode_dependent_failure (records : List NetworkRecord)
    (finalUrl : String) (scoreOf : NetworkRecord → Nat)
    (hmiss : ∀ r ∈ records, r.url ≠ finalUrl) :
    computeMainResource records finalUrl .navigation =
        .error (.mainResourceNotFound "Unable to identify the main resource") ∧
      computeMainResource records finalUrl .timespan = .ok none ∧
      auditMainResource scoreOf records finalUrl .timespan =
        .ok { score := none, notApplicable := true } := by
  have hfind : records.find? (fun r => decide (r.url = finalUrl)) = none := by
    rw [List.find?_eq_none]
    intro r hr
    simp [hmiss r hr]
  refine ⟨?_, ?_, ?_⟩
  · unfold computeMainResource
    rw [hfind]
  · unfold computeMainResource
    rw [hfind]
  · unfold auditMainResource computeMainResource
    rw [hfind]

/-- Witness for C6: an empty network-record list in timespan mode yields the
neutral non-scored product, and in navigation mode the error. -/
theorem mainResource_mode_dependent_failure_witness :
    computeMainResource [] "https://example.com/" .navigation =
        .error (.mainResourceNotFound "Unable to identify the main resource") ∧
      auditMainResource (fun _ => 1) [] "https://example.com/" .timespan =
        .ok { score := none, notApplicable := true } :=
  ⟨(mainResource_mode_dependent_failure [] "https://example.com/" (fun _ => 1)
      (by simp)).1,
    (mainResource_mode_dependent_failure [] "https://example.com/" (fun _ => 1)
      (by simp)).2.2⟩

/-- The failure value returned by parseJSON in sd-validation/json.js: a
message and an optional line. -/
structure ParseFailure where
  line : Option String
  message : String
deriving DecidableEq, Repr

/-- One error reported by the json-ld or schema-org stage: an optional path
and a message. -/
structure StageIssue where
  path : Option String
  message : String
deriving DecidableEq, Repr

/-- The four stage functions the validate pipeline in sd-validation/index.js
delegates to. parseJSON is from sd-validation/json.js (none on success); the
other three modules are external to the pipeline file, so they are kept
abstract: validateJsonLD consumes the parsed input, expandAsync either throws
a message or yields the expanded object, validateSchemaOrg consumes the
expanded object. The parsed and expanded objects are represented by the text
they were derived from. -/
structure SDStages where
  parseJSON : String → Option ParseFailure
  validateJsonLD : String → List StageIssue
  expandAsync : String → Except String String
  validateSchemaOrg : String → List StageIssue

/-- An element of the error array returned by validate: the tag of the stage
that produced it, an optional path, and a message. -/
structure SDError where
  validator : String
  path : Option String
  message : String
deriving DecidableEq, Repr

/-- The validate pipeline of sd-validation/index.js: step 1 parses the JSON
and returns a single json-tagged error on failure; step 2 runs the json-ld
validator and returns its errors tagged json-ld when nonempty; step 3 expands
and returns a single json-ld-expand-tagged error when expansion throws;
step 4 runs the schema-org validator and returns its errors tagged
schema-org; otherwise the empty array. -/
def validate (s : SDStages) (textInput : String) : List SDError :=
  match s.parseJSON textInput with
  | some parseError =>
    [{ validator := "json", path := parseError.line,
       message := parseError.message }]
  | none =>
    let jsonLdErrors := s.validateJsonLD textInput
    if jsonLdErrors.isEmpty = false then
      jsonLdErrors.map (fun err =>
        { validator := "json-ld", path := err.path, message := err.message })
    else
      match s.expandAsync textInput with
      | .error msg =>
        [{ validator := "json-ld-expand", path := none, message := msg }]
      | .ok expandedObj =>
        let schemaOrgErrors := s.validateSchemaOrg expandedObj
        schemaOrgErrors.map (fun err =>
          { validator := "schema-org", path := err.path,
            message := err.message })

/-- Spec-side characterization for C9: the first stage, in the fixed order
json, json-ld, json-ld-expand, schema-org, that produces errors on this
input, or none when all four stages pass. -/
def specFirstFailingStage (s : SDStages) (textInput : String) :
    Option String :=
  match s.parseJSON textInput with
  | some _ => some "json"
  | none =>
    if (s.validateJsonLD textInput).isEmpty = false then some "json-ld"
    else
      match s.expandAsync textInput with
      | .error _ => some "json-ld-expand"
      | .ok expandedObj =>
        if (s.validateSchemaOrg expandedObj).isEmpty = false then
          some "schema-org"
        else none

/-- C9: the validate pipeline runs its stages in the fixed order json,
json-ld, json-ld-expand, schema-org and stops at the first stage producing
errors: its result is empty exactly when no stage fails, and every returned
error carries the validator tag of that single first failing stage, so later
stages never contribute errors after a failure. -/
theorem sdValidation_single_failing_stage (s : SDStages) (textInput : String) :
    ((validate s textInput).isEmpty ↔
        specFirstFailingStage s textInput = none) ∧
      ∀ err ∈ validate s textInput,
        some err.validator = specFirstFailingStage s textInput := by
  unfold validate specFirstFailingStage
  cases hp : s.parseJSON textInput with
  | some pe => simp
  | none =>
    dsimp only
    by_cases hj : (s.validateJsonLD textInput).isEmpty = false
    · simp only [if_pos hj]
      constructor
      · constructor
        · intro hemp
          rw [List.isEmpty_iff, List.map_eq_nil_iff] at hemp
          rw [hemp] at hj
          simp at hj
        · intro hcontra
          simp at hcontra
      · intro err herr
        rw [List.mem_map] at herr
        obtain ⟨a, _, rfl⟩ := herr
        rfl
    · simp only [if_neg hj]
      cases he : s.expandAsync textInput with
      | error msg => simp
      | ok expandedObj =>
        dsimp only
        by_cases hs : (s.validateSchemaOrg expandedObj).isEmpty = false
        · simp only [if_pos hs]
          constructor
          · constructor
            · intro hemp
              rw [List.isEmpty_iff, List.map_eq_nil_iff] at hemp
              rw [hemp] at hs
              simp at hs
            · intro hcontra
              simp at hcontra
          · intro err herr
            rw [List.mem_map] at herr
            obtain ⟨a, _, rfl⟩ := herr
            rfl
        · simp only [if_neg hs]
          have hnil : s.validateSchemaOrg expandedObj = [] := by
            rw [← List.isEmpty_iff]
            revert hs
            cases (s.validateSchemaOrg expandedObj).isEmpty <;> simp
          constructor
          · simp [hnil]
          · intro err herr
            rw [hnil] at herr
            simp at herr

/-- Witness for C9: with a failing parse stage, validate reports exactly one
json-tagged error and the characterization names json as the failing stage. -/
theorem sdValidation_single_failing_stage_witness :
    some "json" = specFirstFailingStage
        ⟨fun _ => some ⟨some "1", "bad token"⟩, fun _ => [], fun t => .ok t,
          fun _ => []⟩ "not json" :=
  (sdValidation_single_failing_stage
      ⟨fun _ => some ⟨some "1", "bad token"⟩, fun _ => [], fun t => .ok t,
        fun _ => []⟩ "not json").2
    ⟨"json", some "1", "bad token"⟩ (by simp [validate])

/-- A link element artifact as consumed by the canonical audit: its rel, a
parsed absolute href (null when the raw value did not parse), the raw
attribute value, the hreflang attribute, and where the link was found (head,
body, or headers). -/
structure LinkElement where
  rel : String
  href : Option String
  hrefRaw : String
  hreflang : String
  source : String
deriving DecidableEq, Repr

/-- The observable parts of a parsed URL object that the canonical audit
reads: href, hostname, origin, and pathname. -/
structure URLObj where
  href : String
  hostname : String
  origin : String
  pathname : String
deriving DecidableEq, Repr

/-- The URL library operations the audit delegates to (url-shim is outside
the audit file): parsing a string into a URL object and validity of a raw
href. The audit result is proved independent of body links for every choice
of these operations. -/
structure URLOps where
  parse : String → URLObj
  isValid : String → Bool

/-- JavaScript string truthiness for a string-or-null value: null and the
empty string are falsy. -/
def strTruthy : Option String → Bool
  | none => false
  | some s => s ≠ ""

/-- Insertion into a JS Set of strings: adds at the end only when absent,
preserving insertion order. -/
def insertUnique (l : List String) (s : String) : List String :=
  if s ∈ l then l else l ++ [s]

/-- The accumulator of collectCanonicalURLs: the unique canonical URL set,
the hreflang URL set, and the last-seen invalid and relative canonical
links. -/
structure CanonicalURLData where
  uniqueCanonicalURLs : List String
  hreflangURLs : List String
  invalidCanonicalLink : Option LinkElement
  relativeCanonicallink : Option LinkElement
deriving DecidableEq, Repr

/-- One iteration of the link loop of Canonical.collectCanonicalURLs: body
links are skipped; canonical links with an empty raw href are skipped;
canonical links with a null parsed href mark the invalid link; canonical
links whose raw href is not a valid URL mark the relative link; remaining
canonical hrefs join the unique set; alternate links with a truthy href and a
nonempty hreflang join the hreflang set. -/
def collectStep (ops : URLOps) (acc : CanonicalURLData) (link : LinkElement) :
    CanonicalURLData :=
  if link.source = "body" then acc
  else if link.rel = "canonical" then
    if link.hrefRaw = "" then acc
    else if strTruthy link.href = false then
      { acc with invalidCanonicalLink := some link }
    else if ops.isValid link.hrefRaw = false then
      { acc with relativeCanonicallink := some link }
    else
      { acc with uniqueCanonicalURLs :=
          insertUnique acc.uniqueCanonicalURLs (link.href.getD "") }
  else if link.rel = "alternate" then
    if strTruthy link.href && decide (link.hreflang ≠ "") then
      { acc with hreflangURLs :=
          insertUnique acc.hreflangURLs (link.href.getD "") }
    else acc
  else acc

/-- Canonical.collectCanonicalURLs from canonical.js: a single pass over the
LinkElements artifact. -/
def collectCanonicalURLs (ops : URLOps) (linkElements : List LinkElement) :
    CanonicalURLData :=
  linkElements.foldl (collectStep ops) ⟨[], [], none, none⟩

/-- The audit product shape the canonical audit returns: rawValue, an
optional explanation, and the notApplicable marker. -/
structure AuditProduct where
  rawValue : Bool
  explanation : Option String
  notApplicable : Bool
deriving DecidableEq, Repr

/-- The string-or-product return value of
Canonical.findValidCanonicaURLOrFinish. -/
inductive CanonicalOutcome where
  | product (p : AuditProduct)
  | url (u : String)
deriving DecidableEq, Repr

/-- Canonical.findValidCanonicaURLOrFinish from canonical.js: reports an
invalid or relative canonical link, a missing canonical URL (not applicable),
or multiple conflicting canonical URLs, and otherwise hands back the single
canonical URL string. -/
def findValidCanonicaURLOrFinish (d : CanonicalURLData) : CanonicalOutcome :=
  match d.invalidCanonicalLink with
  | some link =>
    .product
      { rawValue := false,
        explanation := some ("Invalid URL (" ++ link.hrefRaw ++ ")"),
        notApplicable := false }
  | none =>
  match d.relativeCanonicallink with
  | some link =>
    .product
      { rawValue := false,
        explanation := some ("Relative URL (" ++ link.hrefRaw ++ ")"),
        notApplicable := false }
  | none =>
    let canonicalURLs := d.uniqueCanonicalURLs
    if canonicalURLs.length = 0 then
      .product { rawValue := true, explanation := none, notApplicable := true }
    else if canonicalURLs.length > 1 then
      .product
        { rawValue := false,
          explanation := some ("Multiple conflicting URLs (" ++
            String.intercalate ", " canonicalURLs ++ ")"),
          notApplicable := false }
    else .url (canonicalURLs.headD "")

/-- Splits a character sequence on the dot character, the way the JS string
split method does: n dots yield n + 1 pieces, empty pieces included. -/
def splitDots : List Char → List (List Char)
  | [] => [[]]
  | c :: rest =>
    if c = '.' then [] :: splitDots rest
    else
      match splitDots rest with
      | [] => [[c]]
      | piece :: pieces => (c :: piece) :: pieces

/-- getPrimaryDomain from canonical.js: the last two labels of the hostname
joined by a dot. -/
def getPrimaryDomain (url : URLObj) : String :=
  String.intercalate "."
    ((((splitDots url.hostname.toList).map
      (fun cs => String.mk cs)).reverse.take 2).reverse)

/-- Canonical.findCommonCanonicalURLMistakes from canonical.js: flags a
canonical pointing at another hreflang location, at a different primary
domain, or at the root of the same origin from a non-root page. -/
def findCommonCanonicalURLMistakes (d : CanonicalURLData)
    (canonicalURL baseURL : URLObj) : Option AuditProduct :=
  if baseURL.href ∈ d.hreflangURLs ∧ canonicalURL.href ∈ d.hreflangURLs ∧
      baseURL.href ≠ canonicalURL.href then
    some
      { rawValue := false,
        explanation := some ("Points to another hreflang location (" ++
          baseURL.href ++ ")"),
        notApplicable := false }
  else if getPrimaryDomain canonicalURL ≠ getPrimaryDomain baseURL then
    some
      { rawValue := false,
        explanation := some ("Points to a different domain (" ++
          canonicalURL.href ++ ")"),
        notApplicable := false }
  else if canonicalURL.origin = baseURL.origin ∧
      canonicalURL.pathname = "/" ∧ baseURL.pathname ≠ "/" then
    some
      { rawValue := false,
        explanation := some "Points to a root of the same origin",
        notApplicable := false }
  else none

/-- Canonical.audit from canonical.js, parameterized by the URL operations
and by the main-resource URL the audit awaits before reading the link
elements. -/
def Canonical.audit (ops : URLOps) (mainResourceUrl : String)
    (linkElements : List LinkElement) : AuditProduct :=
  let baseURL := ops.parse mainResourceUrl
  let canonicalURLData := collectCanonicalURLs ops linkElements
  match findValidCanonicaURLOrFinish canonicalURLData with
  | .product p => p
  | .url u =>
    let canonicalURL := ops.parse u
    match findCommonCanonicalURLMistakes canonicalURLData canonicalURL
        baseURL with
    | some p => p
    | none => { rawValue := true, explanation := none, notApplicable := false }

theorem foldl_filter_of_skipped {α β : Type} (f : β → α → β) (p : α → Bool)
    (hf : ∀ b a, p a = false → f b a = b) :
    ∀ (l : List α) (init : β), (l.filter p).foldl f init = l.foldl f init := by
  intro l
  induction l with
  | nil => intro init; rfl
  | cons a rest ih =>
      intro init
      cases hp : p a with
      | true => simp [List.filter_cons, hp, ih]
      | false => simp [List.filter_cons, hp, ih, hf init a hp]

theorem collectStep_skips_body (ops : URLOps) (acc : CanonicalURLData)
    (link : LinkElement) (h : link.source = "body") :
    collectStep ops acc link = acc := by
  simp [collectStep, h]

theorem collectStep_skips_empty_raw_canonical (ops : URLOps)
    (acc : CanonicalURLData) (link : LinkElement)
    (h1 : link.rel = "canonical") (h2 : link.hrefRaw = "") :
    collectStep ops acc link = acc := by
  by_cases hb : link.source = "body"
  · simp [collectStep, hb]
  · simp [collectStep, hb, h1, h2]

theorem collectCanonicalURLs_drop_body (ops : URLOps)
    (links : List LinkElement) :
    collectCanonicalURLs ops
        (links.filter (fun l => !(l.source == "body"))) =
      collectCanonicalURLs ops links := by
  unfold collectCanonicalURLs
  apply foldl_filter_of_skipped
  intro acc a ha
  simp only [Bool.not_eq_false', beq_iff_eq] at ha
  exact collectStep_skips_body ops acc a ha

theorem collectCanonicalURLs_drop_empty_raw (ops : URLOps)
    (links : List LinkElement) :
    collectCanonicalURLs ops
        (links.filter (fun l => !(l.rel == "canonical" && l.hrefRaw == ""))) =
      collectCanonicalURLs ops links := by
  unfold collectCanonicalURLs
  apply foldl_filter_of_skipped
  intro acc a ha
  simp only [Bool.not_eq_false', Bool.and_eq_true, beq_iff_eq] at ha
  exact collectStep_skips_empty_raw_canonical ops acc a ha.1 ha.2

/-- C10: link elements found in the body never influence the canonical audit
result: for every URL-library behavior, main-resource URL, and LinkElements
artifact, the audit product is unchanged when all body-source elements are
removed, and likewise when canonical links with an empty raw href are
removed; in particular an artifact whose links are all body-source (such as a
single invalid body canonical) yields the passing not-applicable product. -/
theorem canonicalAudit_ignores_body_links (ops : URLOps)
    (mainResourceUrl : String) (links : List LinkElement) :
    Canonical.audit ops mainResourceUrl links =
        Canonical.audit ops mainResourceUrl
          (links.filter (fun l => !(l.source == "body"))) ∧
      Canonical.audit ops mainResourceUrl links =
        Canonical.audit ops mainResourceUrl
          (links.filter (fun l => !(l.rel == "canonical" && l.hrefRaw == ""))) ∧
      ((∀ l ∈ links, l.source = "body") →
        Canonical.audit ops mainResourceUrl links =
          { rawValue := true, explanation := none, notApplicable := true }) := by
  refine ⟨?_, ?_, ?_⟩
  · unfold Canonical.audit
    rw [collectCanonicalURLs_drop_body]
  · unfold Canonical.audit
    rw [collectCanonicalURLs_drop_empty_raw]
  · intro hall
    have hfilter : links.filter (fun l => !(l.source == "body")) = [] := by
      rw [List.filter_eq_nil_iff]
      intro a ha
      simp [hall a ha]
    have h1 : Canonical.audit ops mainResourceUrl links =
        Canonical.audit ops mainResourceUrl
          (links.filter (fun l => !(l.source == "body"))) := by
      unfold Canonical.audit
      rw [collectCanonicalURLs_drop_body]
    rw [h1, hfilter]
    rfl

/-- A concrete URL-library instance for the witness. -/
def witnessOps : URLOps := ⟨fun s => ⟨s, "example.com", s, "/"⟩, fun _ => true⟩

/-- Witness for C10: an invalid canonical provided only in the body yields a
passing result. -/
theorem canonicalAudit_ignores_body_links_witness :
    Canonical.audit witnessOps "http://example.com/articles/cats-and-you"
        [⟨"canonical", some "https://foo.com", "https://foo.com", "", "body"⟩] =
      { rawValue := true, explanation := none, notApplicable := true } :=
  (canonicalAudit_ignores_body_links witnessOps
      "http://example.com/articles/cats-and-you"
      [⟨"canonical", some "https://foo.com", "https://foo.com", "", "body"⟩]).2.2
    (by decide)
